import Mathlib

/-!
Shallow embedding of `substrate/client/network/src/protocol/notifications/service/mod.rs`
(the per-protocol notification service of the repository).

Conventions of the embedding:
 - `PeerId`, `NotificationsSink` (the transport-level sink object) and channel
   identities are opaque: they are modelled as `Nat`, equality being identity.
 - The `Arc<Mutex<(NotificationsSink, ProtocolName)>>` cells (type alias
   `NotificationSink` in the source, the distributable message sink) are
   modelled by a store mapping a cell id to its current contents; holding a
   clone of the `Arc` is holding the cell id.
 - `HashMap<PeerId, PeerContext>` is modelled by an association list with
   `insert`-replaces-the-old-binding semantics; lookup order is irrelevant
   because keys are unique.
 - Asynchronous effects whose outcome depends on the environment (whether
   `reserve_notification` yields a permit, whether the permit's `send`
   succeeds, whether an `unbounded_send` to a subscriber succeeds) are
   modelled by explicit oracles (`ReserveOutcome` functions, an `alive` flag
   per subscriber).
 - Rust `usize` arithmetic on the peer counter is modelled as wrapping
   arithmetic modulo `2 ^ 64` (release-mode semantics of `-=` / `+=`).
 - `todo!()` is modelled as the `panicked` outcome: the call never returns.
-/

namespace NotificationServiceModel

/-- Opaque transport-level peer identifier (`libp2p::PeerId`). -/
abbrev PeerId := Nat

/-- Protocol name; in the source an interned string, equality is byte equality. -/
abbrev ProtocolName := String

/-- Opaque identity of a transport sink object (`NotificationsSink`).
Cloning an object yields the same identity. -/
abbrev NotificationsSink := Nat

/-- Identity of one `Arc<Mutex<(NotificationsSink, ProtocolName)>>` cell. -/
abbrev CellId := Nat

/-- Identity of the command channel (`mpsc::Sender<NotificationCommand>`). -/
abbrev ChannelId := Nat

/-- Identity of one subscriber slot (a `TracingUnboundedSender`). -/
abbrev SubscriberId := Nat

/-- Validation result of an inbound substream (`ValidationResult`). -/
inductive ValidationResult where
  | accept
  | reject
deriving DecidableEq

/-- Direction of a substream (`Direction`). -/
inductive Direction where
  | inbound
  | outbound
deriving DecidableEq

/-- Per-peer record (`PeerContext`): the primary sink and the distributable
shared sink cell. -/
structure PeerContext where
  sink : NotificationsSink
  shared_sink : CellId
deriving DecidableEq

/-- Internal broker event (`InnerNotificationEvent`).  The `result_tx` half of
`ValidateInboundSubstream` is elided: no claim inspects it and it is passed
through unchanged. -/
inductive InnerNotificationEvent where
  | validateInboundSubstream (peer : PeerId) (handshake : List Nat)
  | notificationStreamOpened (peer : PeerId) (direction : Direction)
      (handshake : List Nat) (negotiated_fallback : Option ProtocolName)
      (sink : NotificationsSink)
  | notificationStreamClosed (peer : PeerId)
  | notificationReceived (peer : PeerId) (msg : List Nat)
  | notificationSinkReplaced (peer : PeerId) (sink : NotificationsSink)
deriving DecidableEq

/-- Public event surfaced to the application (`NotificationEvent` of
`service::traits`).  Note the absence of any sink-replacement variant. -/
inductive NotificationEvent where
  | validateInboundSubstream (peer : PeerId) (handshake : List Nat)
  | notificationStreamOpened (peer : PeerId) (handshake : List Nat)
      (direction : Direction) (negotiated_fallback : Option ProtocolName)
  | notificationStreamClosed (peer : PeerId)
  | notificationReceived (peer : PeerId) (msg : List Nat)
deriving DecidableEq

/-- Errors of `error::Error` relevant to this module. -/
inductive Error where
  | peerDoesntExist (peer : PeerId)
  | connectionClosed
  | channelClosed
deriving DecidableEq

/-- Outcome of `reserve_notification().await` followed by `permit.send(..)`
on a given transport sink, as decided by the environment. -/
inductive ReserveOutcome where
  | noPermit
  | permit (send_ok : Bool)

/-- Store of the shared `Arc<Mutex<(NotificationsSink, ProtocolName)>>` cells. -/
abbrev SinkStore := List (CellId × NotificationsSink × ProtocolName)

/-- Lookup the current contents of a cell. -/
def storeLookup (cell : CellId) : SinkStore → Option (NotificationsSink × ProtocolName)
  | [] => none
  | (c, s, p) :: rest => if cell = c then some (s, p) else storeLookup cell rest

/-- Drop a cell from the store. -/
def storeRemove (cell : CellId) : SinkStore → SinkStore
  | [] => []
  | (c, s, p) :: rest =>
      if cell = c then storeRemove cell rest else (c, s, p) :: storeRemove cell rest

/-- Overwrite the contents of a cell (`*cell.lock() = v`). -/
def storeSet (cell : CellId) (v : NotificationsSink × ProtocolName) (store : SinkStore) :
    SinkStore :=
  (cell, v.1, v.2) :: storeRemove cell store

/-- Association-list lookup for the `peers` map of a handle. -/
def peers_lookup (peer : PeerId) : List (PeerId × PeerContext) → Option PeerContext
  | [] => none
  | (q, ctx) :: rest => if peer = q then some ctx else peers_lookup peer rest

/-- Remove a key from the `peers` map (`HashMap::remove`). -/
def peers_remove (peer : PeerId) :
    List (PeerId × PeerContext) → List (PeerId × PeerContext)
  | [] => []
  | (q, ctx) :: rest =>
      if peer = q then peers_remove peer rest else (q, ctx) :: peers_remove peer rest

/-- Insert into the `peers` map, replacing any existing binding
(`HashMap::insert`). -/
def peers_insert (peer : PeerId) (ctx : PeerContext)
    (l : List (PeerId × PeerContext)) : List (PeerId × PeerContext) :=
  (peer, ctx) :: peers_remove peer l

/-- Mutate the binding of a key in place (`HashMap::get_mut` then assignment). -/
def peers_update (peer : PeerId) (f : PeerContext → PeerContext) :
    List (PeerId × PeerContext) → List (PeerId × PeerContext)
  | [] => []
  | (q, ctx) :: rest =>
      if peer = q then (q, f ctx) :: peers_update peer f rest
      else (q, ctx) :: peers_update peer f rest

/-- The application-side handle (`NotificationHandle`): protocol name, command
channel, private event stream identity, and the private `peers` map. -/
structure NotificationHandle where
  protocol : ProtocolName
  tx : ChannelId
  rx : SubscriberId
  peers : List (PeerId × PeerContext)
deriving DecidableEq

/-- World of one handle: the handle itself, the shared cell store, and the
allocator for fresh cells. -/
structure World where
  handle : NotificationHandle
  store : SinkStore
  next_cell : CellId
deriving DecidableEq

/-- Process one internal event exactly as the body of the `loop` in
`NotificationHandle::next_event` does: returns the updated world and the
public event to surface, if any (`none` means the loop continues). -/
def processInner (w : World) : InnerNotificationEvent → World × Option NotificationEvent
  | .validateInboundSubstream peer handshake =>
      (w, some (.validateInboundSubstream peer handshake))
  | .notificationStreamOpened peer direction handshake negotiated_fallback sink =>
      let cell := w.next_cell
      let ctx : PeerContext := { sink := sink, shared_sink := cell }
      ({ handle := { w.handle with peers := peers_insert peer ctx w.handle.peers },
         store := (cell, sink, w.handle.protocol) :: w.store,
         next_cell := cell + 1 },
       some (.notificationStreamOpened peer handshake direction negotiated_fallback))
  | .notificationStreamClosed peer =>
      ({ w with handle := { w.handle with peers := peers_remove peer w.handle.peers } },
       some (.notificationStreamClosed peer))
  | .notificationReceived peer msg =>
      (w, some (.notificationReceived peer msg))
  | .notificationSinkReplaced peer sink =>
      match peers_lookup peer w.handle.peers with
      | none => (w, none)
      | some ctx =>
          ({ w with
             handle := { w.handle with
               peers := peers_update peer (fun c => { c with sink := sink }) w.handle.peers },
             store := storeSet ctx.shared_sink (sink, w.handle.protocol) w.store },
           none)

/-- `NotificationHandle::next_event`: drain the given queue of internal events
until one surfaces publicly; `none` when the stream is exhausted (closed). -/
def next_event (w : World) :
    List InnerNotificationEvent → World × Option (NotificationEvent × List InnerNotificationEvent)
  | [] => (w, none)
  | e :: rest =>
      match processInner w e with
      | (w1, some ev) => (w1, some (ev, rest))
      | (w1, none) => next_event w1 rest

/-- `NotificationHandle::message_sink`: a clone of the peer's shared cell. -/
def message_sink (w : World) (peer : PeerId) : Option CellId :=
  (peers_lookup peer w.handle.peers).map (fun ctx => ctx.shared_sink)

/-- `MessageSink::send_sync_notification` for the detached `NotificationSink`
cell: reads the current `(sink, protocol)` pair, records the metric with the
byte length, and delegates to that sink.  Returns the sink actually used, the
protocol of the metric, and the recorded length. -/
def sink_send_sync (store : SinkStore) (cell : CellId) (msg : List Nat) :
    Option (NotificationsSink × ProtocolName × Nat) :=
  (storeLookup cell store).map (fun sp => (sp.1, sp.2, msg.length))

/-- `MessageSink::send_async_notification` for the detached cell: clones the
current sink out of the critical section, reserves, sends.  Returns the sink
actually used and the metric length on success. -/
def sink_send_async (store : SinkStore) (env : NotificationsSink → ReserveOutcome)
    (cell : CellId) (msg : List Nat) : Option (Except Error (NotificationsSink × Nat)) :=
  (storeLookup cell store).map (fun sp =>
    match env sp.1 with
    | .noPermit => .error .connectionClosed
    | .permit false => .error .channelClosed
    | .permit true => .ok (sp.1, msg.length))

/-- `NotificationService::send_async_notification` on the handle: lookup the
peer, reserve on the primary sink, send, record the metric only on success.
Returns the (unchanged) handle, the result, and the list of recorded
sent-notification metrics. -/
def send_async_notification (h : NotificationHandle)
    (env : NotificationsSink → ReserveOutcome) (peer : PeerId) (msg : List Nat) :
    NotificationHandle × Except Error Unit × List (ProtocolName × Nat) :=
  match peers_lookup peer h.peers with
  | none => (h, .error (.peerDoesntExist peer), [])
  | some ctx =>
      match env ctx.sink with
      | .noPermit => (h, .error .connectionClosed, [])
      | .permit false => (h, .error .channelClosed, [])
      | .permit true => (h, .ok (), [(h.protocol, msg.length)])

/-- `NotificationService::clone` on the handle: allocate a fresh event channel,
push its sender onto the shared subscriber registry, and return the new handle.
The registry is passed explicitly because it is shared state. -/
def clone (h : NotificationHandle) (subscribers : List SubscriberId)
    (fresh : SubscriberId) : Except Unit (NotificationHandle × List SubscriberId) :=
  .ok ({ protocol := h.protocol, tx := h.tx, rx := fresh, peers := h.peers },
       subscribers ++ [fresh])

/-- Outcome of a Rust call that may panic. -/
inductive RustOutcome (α : Type) where
  | panicked (msg : String)
  | returned (val : α)
deriving DecidableEq

/-- `NotificationService::open_substream` of `NotificationHandle`: the body is
`todo!(..)`, so the call panics unconditionally. -/
def open_substream (_peer : PeerId) : RustOutcome (Except Unit Unit) :=
  .panicked "support for opening substreams not implemented yet"

/-- `NotificationService::close_substream` of `NotificationHandle`: the body is
`todo!(..)`, so the call panics unconditionally. -/
def close_substream (_peer : PeerId) : RustOutcome (Except Unit Unit) :=
  .panicked "support for closing substreams not implemented yet, call `NetworkService::disconnect_peer()` instead"

/-- One subscriber slot of the registry, with the oracle verdict of whether an
`unbounded_send` to it succeeds (its receiver is still alive). -/
structure Subscriber where
  id : SubscriberId
  alive : Bool
deriving DecidableEq

/-- Network-side handle (`ProtocolHandle`). -/
structure ProtocolHandle where
  protocol : ProtocolName
  subscribers : List Subscriber
  num_peers : Nat
  delegate_to_peerset : Bool
deriving DecidableEq

/-- Word size of the `usize` peer counter. -/
def USIZE_SIZE : Nat := 2 ^ 64

/-- The `retain` pass of a broadcast: keep exactly the subscribers whose
`unbounded_send` succeeded. -/
def retain_alive (subs : List Subscriber) : List Subscriber :=
  subs.filter (fun s => s.alive)

/-- `ProtocolHandle::report_substream_opened`: broadcast, retain live
subscribers, increment the peer counter (wrapping `usize` arithmetic). -/
def report_substream_opened (h : ProtocolHandle) (_peer : PeerId)
    (_direction : Direction) (_handshake : List Nat)
    (_negotiated_fallback : Option ProtocolName) (_sink : NotificationsSink) :
    ProtocolHandle × Except Unit Unit :=
  ({ h with subscribers := retain_alive h.subscribers,
            num_peers := (h.num_peers + 1) % USIZE_SIZE },
   .ok ())

/-- `ProtocolHandle::report_substream_closed`: broadcast, retain live
subscribers, decrement the peer counter.  The source performs a plain
`usize` subtraction `self.num_peers -= 1`, which wraps modulo `2 ^ 64`
below zero (and is an arithmetic-overflow defect in debug builds). -/
def report_substream_closed (h : ProtocolHandle) (_peer : PeerId) :
    ProtocolHandle × Except Unit Unit :=
  ({ h with subscribers := retain_alive h.subscribers,
            num_peers := (h.num_peers + (USIZE_SIZE - 1)) % USIZE_SIZE },
   .ok ())

/-- `ProtocolHandle::num_peers`. -/
def num_peers (h : ProtocolHandle) : Nat := h.num_peers

/-- Which one-shot verdict receiver the returned `WaitForValidation` wraps:
either the single subscriber's own channel, or the channel fed by the spawned
aggregator task over the subscribers that were successfully sent to. -/
inductive VerdictSource where
  | direct (subscriber : SubscriberId)
  | aggregated (subscribers : List SubscriberId)
deriving DecidableEq

/-- Result of `report_incoming_substream` (`ValidationCallResult`). -/
inductive ValidationCallResult where
  | waitForValidation (src : VerdictSource)
  | delegated
deriving DecidableEq

/-- `ProtocolHandle::report_incoming_substream`: delegate short-circuit, the
sole-subscriber direct path, and the multi-subscriber fan-out.  Returns the
call result plus the ids of subscribers that successfully received the
`ValidateInboundSubstream` event. -/
def report_incoming_substream (h : ProtocolHandle) (_peer : PeerId)
    (_handshake : List Nat) : Except Unit ValidationCallResult × List SubscriberId :=
  if h.delegate_to_peerset then (.ok .delegated, [])
  else
    match h.subscribers with
    | [s] =>
        if s.alive then (.ok (.waitForValidation (.direct s.id)), [s.id])
        else (.error (), [])
    | subs =>
        let succ := (retain_alive subs).map (fun s => s.id)
        (.ok (.waitForValidation (.aggregated succ)), succ)

/-- The aggregator task spawned for the multi-subscriber case: it drains the
verdict receivers in completion order; a receiver that yields `Reject`, or
whose sender was dropped (`Err`, modelled as `none`), makes it return `Reject`
at once; if every receiver yielded `Accept` (in particular when there are no
receivers) it returns `Accept`. -/
def aggregate : List (Option ValidationResult) → ValidationResult
  | [] => .accept
  | some .accept :: rest => aggregate rest
  | _ :: _ => .reject

/-- Split a string at every '/' character, keeping empty segments: the
semantics of Rust `str::split("/")` used by `metric_label_for_protocol`. -/
def splitSlashAux : List Char → List Char → List String
  | [], seen => [String.mk seen.reverse]
  | c :: rest, seen =>
      if c = '/' then String.mk seen.reverse :: splitSlashAux rest []
      else splitSlashAux rest (c :: seen)

/-- Rust `protocol_name.split("/").collect::<Vec<_>>()`. -/
def rust_split_slash (s : String) : List String := splitSlashAux s.toList []

/-- Derivation of the event-channel metric label (`metric_label_for_protocol`):
split on "/", reverse, take the last two tokens, fold from the fixed prefix
with `format!("{}-{}", acc, val)`. -/
def metric_label_for_protocol (protocol : ProtocolName) : String :=
  let keys := rust_split_slash protocol
  (keys.reverse.take 2).foldl (fun acc val => acc ++ "-" ++ val)
    "mpsc-notification-to-protocol"

/-- Join segments onto a head string with '-' separators, one at a time;
written from the spec's wording of the label rule (fold from the prefix by
appending "-" then the segment). -/
def specJoinDash (head : String) : List String → String
  | [] => head
  | seg :: rest => specJoinDash (head ++ "-" ++ seg) rest

/-- Modelled from the spec: the label rule stated in the spec, built
independently of the source translation: split the name on "/", reverse the
segment list, take 2 segments, and fold from the prefix
"mpsc-notification-to-protocol" by appending "-" and the segment. -/
def spec_metric_label (protocol : ProtocolName) : String :=
  specJoinDash "mpsc-notification-to-protocol"
    ((rust_split_slash protocol).reverse.take 2)

/-- A lifecycle call made on a `ProtocolHandle`: one `report_substream_opened`
or one `report_substream_closed`. -/
inductive StreamOp where
  | openOp (peer : PeerId)
  | closeOp (peer : PeerId)
deriving DecidableEq

/-- Apply a sequence of lifecycle calls to a `ProtocolHandle` (direction,
handshake, fallback and sink do not affect the peer counter). -/
def apply_stream_ops (h : ProtocolHandle) : List StreamOp → ProtocolHandle
  | [] => h
  | .openOp p :: rest =>
      apply_stream_ops (report_substream_opened h p .inbound [] none 0).1 rest
  | .closeOp p :: rest =>
      apply_stream_ops (report_substream_closed h p).1 rest

/-- Number of `report_substream_opened` calls in a sequence. -/
def count_opens : List StreamOp → Nat
  | [] => 0
  | .openOp _ :: rest => count_opens rest + 1
  | .closeOp _ :: rest => count_opens rest

/-- Number of `report_substream_closed` calls in a sequence. -/
def count_closes : List StreamOp → Nat
  | [] => 0
  | .openOp _ :: rest => count_closes rest
  | .closeOp _ :: rest => count_closes rest + 1

/-- Check that, starting from a counter value `n`, every close in the sequence
is matched by an earlier open: no prefix drives the counter below zero. -/
def balanced_from (n : Nat) : List StreamOp → Bool
  | [] => true
  | .openOp _ :: rest => balanced_from (n + 1) rest
  | .closeOp _ :: rest => decide (0 < n) && balanced_from (n - 1) rest

/-- Concrete peer context used by witnesses and counterexamples. -/
def exPeerContext : PeerContext := { sink := 7, shared_sink := 0 }

/-- Concrete handle with one known peer (peer 5). -/
def exNotificationHandle : NotificationHandle :=
  { protocol := "/p", tx := 3, rx := 0, peers := [(5, exPeerContext)] }

/-- Concrete world around `exNotificationHandle`. -/
def exWorld : World :=
  { handle := exNotificationHandle, store := [(0, 7, "/p")], next_cell := 1 }

/-- Environment in which every reservation and send succeeds. -/
def exEnvPermit : NotificationsSink → ReserveOutcome := fun _ => .permit true

/-- Concrete protocol handle with validation delegated to the peerset. -/
def exProtocolHandleDelegated : ProtocolHandle :=
  { protocol := "/p", subscribers := [], num_peers := 0, delegate_to_peerset := true }

/-- Concrete freshly created protocol handle (no delegation, no subscribers,
zero peers). -/
def exProtocolHandleFresh : ProtocolHandle :=
  { protocol := "/p", subscribers := [], num_peers := 0, delegate_to_peerset := false }

/-- Helper for the aggregator: `aggregate` yields `accept` exactly when every
receiver yielded `Accept`. -/
lemma aggregate_eq_accept (l : List (Option ValidationResult)) :
    aggregate l = .accept ↔ ∀ x ∈ l, x = some ValidationResult.accept := by
  induction l with
  | nil => simp [aggregate]
  | cons x rest ih =>
      rcases x with _ | v
      · simp [aggregate]
      · rcases v with _ | _
        · simpa [aggregate] using ih
        · simp [aggregate]

/-- Helper: `List.foldl` with dash-append agrees with the spec-side recursive
join. -/
lemma foldl_dash_eq_specJoinDash (l : List String) (head : String) :
    l.foldl (fun acc val => acc ++ "-" ++ val) head = specJoinDash head l := by
  induction l generalizing head with
  | nil => simp [specJoinDash]
  | cons seg rest ih => simp [specJoinDash, List.foldl, ih]

/-- Helper: reading a cell right after overwriting it yields the new value. -/
lemma storeLookup_storeSet (cell : CellId) (v : NotificationsSink × ProtocolName)
    (store : SinkStore) : storeLookup cell (storeSet cell v store) = some v := by
  simp [storeSet, storeLookup]

/-- Claim C1, counterexample: cloning a handle that already knows peer 5 yields
a handle whose `peers` map still contains peer 5 — it is a copy of the
original's map, not the empty map the claim demands. -/
theorem claim_C1_counterexample :
    clone exNotificationHandle [0] 1
      = .ok ({ protocol := "/p", tx := 3, rx := 1, peers := [(5, exPeerContext)] }, [0, 1])
    ∧ ([(5, exPeerContext)] : List (PeerId × PeerContext)) ≠ [] := by
  exact ⟨rfl, by decide⟩

/-- Claim C1, amended: `clone` returns a new handle that shares the same
protocol name, command channel sender and subscriber registry, and whose
`peers` map is a copy of the original handle's map at clone time (so the clone
does observe the peers opened before the clone). -/
theorem claim_C1_amended (h : NotificationHandle) (subs : List SubscriberId)
    (fresh : SubscriberId) :
    clone h subs fresh
      = .ok ({ protocol := h.protocol, tx := h.tx, rx := fresh, peers := h.peers },
             subs ++ [fresh]) :=
  rfl

/-- Claim C10: `clone` always returns `Ok`, and the freshly allocated event
sender is unconditionally appended to the shared subscriber registry handed
back with the new handle. -/
theorem claim_C10 (h : NotificationHandle) (subs : List SubscriberId)
    (fresh : SubscriberId) :
    ∃ h2, clone h subs fresh = .ok (h2, subs ++ [fresh]) :=
  ⟨_, rfl⟩

/-- Claim C3: the multi-subscriber validation aggregator returns `Accept` for
an empty receiver list, returns `Accept` exactly when every receiver yielded
`Accept`, and returns `Reject` as soon as any receiver yields `Reject` or
fails (dropped sender, modelled as `none`). -/
theorem claim_C3 :
    aggregate [] = .accept
    ∧ (∀ l, aggregate l = .accept ↔ ∀ x ∈ l, x = some ValidationResult.accept)
    ∧ (∀ l x, x ∈ l → x ≠ some ValidationResult.accept → aggregate l = .reject) := by
  refine ⟨rfl, aggregate_eq_accept, ?_⟩
  intro l x hmem hne
  cases hagg : aggregate l with
  | reject => rfl
  | accept => exact absurd ((aggregate_eq_accept l).mp hagg x hmem) hne

/-- Claim C3, witness: a concrete list with one accepting receiver, one
dropped sender and one rejecting receiver aggregates to `Reject`. -/
theorem claim_C3_witness :
    aggregate [some .accept, none, some .reject] = .reject :=
  claim_C3.2.2 [some .accept, none, some .reject] none (by decide) (by decide)

/-- Claim C5, counterexample: the label derived from "/a/b/c/d/e" is not the
string "mpsc-notification-to-protocol-d-e" claimed by the spec — the fold
appends the reversed segments in traversal order, giving "...-e-d". -/
theorem claim_C5_counterexample :
    metric_label_for_protocol "/a/b/c/d/e" ≠ "mpsc-notification-to-protocol-d-e" := by
  decide

/-- Claim C5, amended: for the protocol name "/a/b/c/d/e" the metric label
derivation returns exactly "mpsc-notification-to-protocol-e-d" (the last
segment first, then the second-to-last). -/
theorem claim_C5_amended :
    metric_label_for_protocol "/a/b/c/d/e" = "mpsc-notification-to-protocol-e-d" := by
  decide

/-- Claim C6: the label for "/sup/1/transactions/2" is exactly
"mpsc-notification-to-protocol-2-transactions", and in general the derivation
agrees with the spec's rule: split on "/", reverse the segment list, take 2,
fold from the prefix by appending "-" and the segment. -/
theorem claim_C6 :
    metric_label_for_protocol "/sup/1/transactions/2"
      = "mpsc-notification-to-protocol-2-transactions"
    ∧ ∀ p, metric_label_for_protocol p = spec_metric_label p := by
  refine ⟨by decide, ?_⟩
  intro p
  simpa [metric_label_for_protocol, spec_metric_label] using
    foldl_dash_eq_specJoinDash ((rust_split_slash p).reverse.take 2)
      "mpsc-notification-to-protocol"

/-- Claim C9, counterexample: calling `open_substream` or `close_substream` on
a handle panics (the bodies are `todo!`), so the claim that they do not panic
and produce a well-defined failure result is false at peer 0. -/
theorem claim_C9_counterexample :
    open_substream 0 = .panicked "support for opening substreams not implemented yet"
    ∧ close_substream 0
      = .panicked "support for closing substreams not implemented yet, call `NetworkService::disconnect_peer()` instead" :=
  ⟨rfl, rfl⟩

/-- Claim C9, amended: for every peer, `open_substream` and `close_substream`
panic unconditionally with a "not implemented yet" message — they never return
at all, so in particular they never report silent success. -/
theorem claim_C9_amended (peer : PeerId) :
    open_substream peer = .panicked "support for opening substreams not implemented yet"
    ∧ close_substream peer
      = .panicked "support for closing substreams not implemented yet, call `NetworkService::disconnect_peer()` instead" :=
  ⟨rfl, rfl⟩

/-- Claim C2: after `next_event` processes a `NotificationSinkReplaced` event
for a known peer, a message sink obtained via `message_sink` before the
replacement sends (synchronously and asynchronously) through the new sink; a
sink-replacement event is never surfaced as a public event; and for an unknown
peer it is consumed without state change while `next_event` continues with the
following event. -/
theorem claim_C2 :
    (∀ (w : World) (peer : PeerId) (newSink : NotificationsSink) (cell : CellId)
        (msg : List Nat) (env : NotificationsSink → ReserveOutcome),
      message_sink w peer = some cell →
      (processInner w (.notificationSinkReplaced peer newSink)).2 = none
      ∧ sink_send_sync (processInner w (.notificationSinkReplaced peer newSink)).1.store
          cell msg = some (newSink, w.handle.protocol, msg.length)
      ∧ (env newSink = .permit true →
          sink_send_async (processInner w (.notificationSinkReplaced peer newSink)).1.store
            env cell msg = some (.ok (newSink, msg.length))))
    ∧ (∀ (w : World) (peer : PeerId) (s : NotificationsSink),
        (processInner w (.notificationSinkReplaced peer s)).2 = none)
    ∧ (∀ (w : World) (peer : PeerId) (s : NotificationsSink)
          (rest : List InnerNotificationEvent),
        peers_lookup peer w.handle.peers = none →
        processInner w (.notificationSinkReplaced peer s) = (w, none)
        ∧ next_event w (.notificationSinkReplaced peer s :: rest) = next_event w rest) := by
  refine ⟨?_, ?_, ?_⟩
  · intro w peer newSink cell msg env hms
    unfold message_sink at hms
    cases hctx : peers_lookup peer w.handle.peers with
    | none => rw [hctx] at hms; simp at hms
    | some ctx =>
        rw [hctx] at hms
        simp at hms
        subst hms
        refine ⟨?_, ?_, ?_⟩
        · simp [processInner, hctx]
        · simp [processInner, hctx, sink_send_sync, storeLookup_storeSet]
        · intro henv
          simp [processInner, hctx, sink_send_async, storeLookup_storeSet, henv]
  · intro w peer s
    cases hctx : peers_lookup peer w.handle.peers <;> simp [processInner, hctx]
  · intro w peer s rest hnone
    constructor
    · simp [processInner, hnone]
    · simp [next_event, processInner, hnone]

/-- Claim C2, witness: in the concrete world `exWorld` (peer 5 known, shared
cell 0), replacing the sink by sink 9 makes a previously obtained message sink
deliver to sink 9 with the message length recorded. -/
theorem claim_C2_witness :
    message_sink exWorld 5 = some 0
    ∧ sink_send_sync (processInner exWorld (.notificationSinkReplaced 5 9)).1.store
        0 [1, 2, 3] = some (9, "/p", 3) :=
  ⟨by decide, (claim_C2.1 exWorld 5 9 0 [1, 2, 3] exEnvPermit (by decide)).2.1⟩

/-- Claim C4, counterexample: a `report_substream_closed` arriving on a fresh
protocol handle whose peer counter is zero does not saturate at zero — the
`usize` subtraction wraps and the counter reads `2 ^ 64 - 1`. -/
theorem claim_C4_counterexample :
    num_peers (report_substream_closed exProtocolHandleFresh 0).1 = 2 ^ 64 - 1
    ∧ (2 ^ 64 - 1 : Nat) ≠ 0 := by
  constructor
  · show (0 + (USIZE_SIZE - 1)) % USIZE_SIZE = 2 ^ 64 - 1
    simp [USIZE_SIZE]
  · decide

/-- Claim C4, amended: as long as every close is matched by an earlier open
(no prefix of the call sequence drives the counter below zero) and the counter
stays below `2 ^ 64`, `num_peers` equals the number of opens without a
matching close; the decrement does not saturate, so a close arriving at zero
wraps the counter to `2 ^ 64 - 1` instead. -/
theorem claim_C4_amended (h : ProtocolHandle) (ops : List StreamOp)
    (hbound : h.num_peers + count_opens ops < USIZE_SIZE)
    (hbal : balanced_from h.num_peers ops = true) :
    num_peers (apply_stream_ops h ops)
      = h.num_peers + count_opens ops - count_closes ops := by
  induction ops generalizing h with
  | nil => simp [apply_stream_ops, count_opens, count_closes, num_peers]
  | cons op rest ih =>
      cases op with
      | openOp p =>
          have hlt : h.num_peers + 1 < USIZE_SIZE := by
            have : count_opens (.openOp p :: rest) = count_opens rest + 1 := rfl
            omega
          have hmod : (h.num_peers + 1) % USIZE_SIZE = h.num_peers + 1 :=
            Nat.mod_eq_of_lt hlt
          have hbal1 : balanced_from (h.num_peers + 1) rest = true := hbal
          have step := ih (report_substream_opened h p .inbound [] none 0).1
          simp only [report_substream_opened, apply_stream_ops] at step ⊢
          rw [step]
          · simp only [hmod, count_opens, count_closes]
            omega
          · simp only [hmod]
            have : count_opens (.openOp p :: rest) = count_opens rest + 1 := rfl
            omega
          · simpa [hmod] using hbal1
      | closeOp p =>
          have hb := hbal
          simp only [balanced_from, Bool.and_eq_true, decide_eq_true_eq] at hb
          obtain ⟨hpos, hbal1⟩ := hb
          have hltU : h.num_peers < USIZE_SIZE := by
            have : 0 ≤ count_opens (.closeOp p :: rest) := Nat.zero_le _
            omega
          have hmod : (h.num_peers + (USIZE_SIZE - 1)) % USIZE_SIZE = h.num_peers - 1 := by
            simp only [USIZE_SIZE] at hltU ⊢
            omega
          have step := ih (report_substream_closed h p).1
          simp only [report_substream_closed, apply_stream_ops] at step ⊢
          rw [step]
          · simp only [hmod, count_opens, count_closes]
            omega
          · have : count_opens (.closeOp p :: rest) = count_opens rest := rfl
            simp only [hmod]
            omega
          · simpa [hmod] using hbal1

/-- Claim C4, witness: from a fresh handle the call sequence open, open, close
leaves the peer counter at exactly one. -/
theorem claim_C4_witness :
    num_peers (apply_stream_ops exProtocolHandleFresh
      [.openOp 1, .openOp 2, .closeOp 1]) = 1 := by
  have := claim_C4_amended exProtocolHandleFresh [.openOp 1, .openOp 2, .closeOp 1]
    (by norm_num [exProtocolHandleFresh, count_opens, USIZE_SIZE])
    (by decide)
  simpa [exProtocolHandleFresh, count_opens, count_closes] using this

/-- Claim C7: `send_async_notification` on a handle returns `PeerDoesntExist`
with no metric recorded and the handle unchanged when the peer is absent; for a
present peer it returns `ConnectionClosed` when the permit reservation on the
primary sink fails, `ChannelClosed` when the send through the reserved permit
fails, and on success (and only then) records the sent-notification metric
with the byte length. -/
theorem claim_C7 (h : NotificationHandle) (env : NotificationsSink → ReserveOutcome)
    (peer : PeerId) (msg : List Nat) :
    (peers_lookup peer h.peers = none →
      send_async_notification h env peer msg = (h, .error (.peerDoesntExist peer), []))
    ∧ (∀ ctx, peers_lookup peer h.peers = some ctx →
        (env ctx.sink = .noPermit →
          send_async_notification h env peer msg = (h, .error .connectionClosed, []))
        ∧ (env ctx.sink = .permit false →
            send_async_notification h env peer msg = (h, .error .channelClosed, []))
        ∧ (env ctx.sink = .permit true →
            send_async_notification h env peer msg
              = (h, .ok (), [(h.protocol, msg.length)]))) := by
  constructor
  · intro hnone
    simp [send_async_notification, hnone]
  · intro ctx hctx
    refine ⟨?_, ?_, ?_⟩ <;> intro he <;> simp [send_async_notification, hctx, he]

/-- Claim C7, witness: on the concrete handle, an unknown peer 6 yields
`PeerDoesntExist`, and the known peer 5 under an always-permitting environment
succeeds and records a metric of length 2 for protocol "/p". -/
theorem claim_C7_witness :
    send_async_notification exNotificationHandle exEnvPermit 6 [1, 2]
      = (exNotificationHandle, .error (.peerDoesntExist 6), [])
    ∧ send_async_notification exNotificationHandle exEnvPermit 5 [1, 2]
      = (exNotificationHandle, .ok (), [("/p", 2)]) :=
  ⟨(claim_C7 exNotificationHandle exEnvPermit 6 [1, 2]).1 (by decide),
   ((claim_C7 exNotificationHandle exEnvPermit 5 [1, 2]).2 exPeerContext
      (by decide)).2.2 rfl⟩

/-- Claim C8: `report_incoming_substream` returns `Delegated` whenever
delegation to the peerset is enabled, regardless of the subscribers; with
exactly one live subscriber it forwards the validation event to that
subscriber alone and returns `WaitForValidation` over that subscriber's direct
verdict channel; and it returns an error exactly when delegation is off and
the sole subscriber's send fails. -/
theorem claim_C8 (h : ProtocolHandle) (peer : PeerId) (handshake : List Nat) :
    (h.delegate_to_peerset = true →
      report_incoming_substream h peer handshake = (.ok .delegated, []))
    ∧ (h.delegate_to_peerset = false → ∀ s, h.subscribers = [s] → s.alive = true →
        report_incoming_substream h peer handshake
          = (.ok (.waitForValidation (.direct s.id)), [s.id]))
    ∧ ((report_incoming_substream h peer handshake).1 = .error ()
        ↔ h.delegate_to_peerset = false
          ∧ ∃ s, h.subscribers = [s] ∧ s.alive = false) := by
  refine ⟨?_, ?_, ?_⟩
  · intro hd
    simp [report_incoming_substream, hd]
  · intro hd s hsubs hal
    simp [report_incoming_substream, hd, hsubs, hal]
  · cases hd : h.delegate_to_peerset with
    | true => simp [report_incoming_substream, hd]
    | false =>
        rcases hsubs : h.subscribers with _ | ⟨s, rest0⟩
        · simp [report_incoming_substream, hd, hsubs]
        · rcases rest0 with _ | ⟨t, rest1⟩
          · cases hal : s.alive <;>
              simp [report_incoming_substream, hd, hsubs, hal]
          · simp [report_incoming_substream, hd, hsubs]

/-- Claim C8, witness: with delegation enabled the call returns `Delegated`
with no event forwarded; with delegation off and a single live subscriber
(id 4) the call returns its direct verdict channel and forwards to it. -/
theorem claim_C8_witness :
    report_incoming_substream exProtocolHandleDelegated 5 [1] = (.ok .delegated, [])
    ∧ report_incoming_substream
        { protocol := "/p", subscribers := [{ id := 4, alive := true }],
          num_peers := 0, delegate_to_peerset := false } 5 [1]
      = (.ok (.waitForValidation (.direct 4)), [4]) :=
  ⟨(claim_C8 exProtocolHandleDelegated 5 [1]).1 rfl,
   (claim_C8 { protocol := "/p", subscribers := [{ id := 4, alive := true }],
               num_peers := 0, delegate_to_peerset := false } 5 [1]).2.1
     rfl { id := 4, alive := true } rfl rfl⟩

end NotificationServiceModel
